import Mathlib

set_option maxHeartbeats 1000000

/-!
Shallow embedding of the Memory Scramble board (`src/board.ts`).

The TypeScript class `Board` keeps a mutable grid `board : Card[][]` together
with fixed `rows`/`cols` fields. We embed the grid as a `List (List Card)`;
JavaScript array indexing, which yields `undefined` out of range or for a
negative index, becomes `Option`-valued lookup on an `Int` index. The mutating
methods become state-passing functions; the `checkRep` throws become an
`Except String` result. The constructor shuffles the incoming card values with
`Array.prototype.sort` and a random comparator, whose outcome is some
permutation of the input; we parametrise construction by that already-permuted
list and quantify over permutations in the theorems.
-/

/-- The three card states of the source: face-down, revealed, matched. -/
inductive CardState where
  | faceDown
  | revealed
  | matched
deriving DecidableEq, Repr

/-- A concrete card (interface `Card` of the source): pair value, lifecycle
state, and the optional identity of the player currently holding it revealed
(the optional `controlledBy` field). -/
structure Card where
  value : String
  state : CardState
  controlledBy : Option String
deriving DecidableEq, Repr

/-- A card as shown to a viewer (interface `PublicCard` of the source): the
value is `none` when hidden. -/
structure PublicCard where
  value : Option String
  state : CardState
  controlledBy : Option String
deriving DecidableEq, Repr

/-- The board: fixed dimensions and the grid, a row-major list of rows. -/
structure Board where
  rows : Nat
  cols : Nat
  board : List (List Card)
deriving DecidableEq, Repr

/-- JavaScript array indexing with an integer index: `undefined` (here `none`)
for a negative or too-large index. -/
def listGetI (l : List α) (i : Int) : Option α :=
  if i < 0 then none else l[i.toNat]?

/-- The card stored at 0-based grid coordinates, when both are in range. -/
def Board.cardAt? (b : Board) (r c : Nat) : Option Card :=
  match b.board[r]? with
  | none => none
  | some rowArr => rowArr[c]?

/-- Cell of a rendered view at 0-based grid coordinates. -/
def viewAt? (v : List (List PublicCard)) (r c : Nat) : Option PublicCard :=
  match v[r]? with
  | none => none
  | some row => row[c]?

/-- The per-card body of `Board.look` in the source: a matched card shows its
value; a card revealed by the viewer shows its value, state and controller;
every other card is reported hidden and face-down. -/
def lookCard (player : String) (card : Card) : PublicCard :=
  if card.state = CardState.matched then
    { value := some card.value, state := CardState.matched, controlledBy := none }
  else if card.state = CardState.revealed ∧ card.controlledBy = some player then
    { value := some card.value, state := CardState.revealed, controlledBy := some player }
  else
    { value := none, state := CardState.faceDown, controlledBy := none }

/-- Method look of the source. The source re-checks each cell for
`undefined` (`if (!card) ...`); in the list embedding every cell within range
holds a card, so that guard has no counterpart. -/
def Board.look (b : Board) (player : String) : List (List PublicCard) :=
  b.board.map fun row => row.map (lookCard player)

/-- The per-card body of `Board.map` in the source: matched and revealed cards
show their true value and state (and no controller); face-down cards are
hidden. -/
def mapCard (card : Card) : PublicCard :=
  if card.state = CardState.matched ∨ card.state = CardState.revealed then
    { value := some card.value, state := card.state, controlledBy := none }
  else
    { value := none, state := CardState.faceDown, controlledBy := none }

/-- Method map of the source: the observer-neutral projection. -/
def Board.map (b : Board) : List (List PublicCard) :=
  b.board.map fun row => row.map mapCard

/-- Method checkRep of the source: throws when the grid does not have
exactly `rows` rows of exactly `cols` columns. -/
def Board.checkRep (b : Board) : Except String Unit :=
  if b.board.length ≠ b.rows then Except.error "Invalid row count"
  else if b.board.any (fun row => row.length ≠ b.cols) then Except.error "Invalid column count"
  else Except.ok ()

/-- The grid-shape invariant: exactly `rows` rows of exactly `cols` columns. -/
def Board.WF (b : Board) : Prop :=
  b.board.length = b.rows ∧ ∀ row ∈ b.board, row.length = b.cols

instance (b : Board) : Decidable b.WF := by
  unfold Board.WF; infer_instance

/-- The grid built by the constructor loop of the source: cell `(r, c)` takes
`shuffled[r*cols + c] || ""` — the next value of the permuted list, or the
empty-string placeholder once the list is exhausted (the only falsy string is
`""`, which `|| ""` maps to itself). All cells start face-down with no
controller. -/
def buildBoard (rows cols : Nat) (shuffled : List String) : Board :=
  { rows := rows
    cols := cols
    board := (List.range rows).map fun r =>
      (List.range cols).map fun c =>
        { value := shuffled.getD (r * cols + c) ""
          state := CardState.faceDown
          controlledBy := none } }

/-- The constructor of the source, parametrised by the outcome `shuffled` of
`[...cards].sort(() => Math.random() - 0.5)` (an arbitrary permutation of the
supplied values): build the grid, then run the defensive `checkRep`. -/
def mkBoard (rows cols : Nat) (shuffled : List String) : Except String Board :=
  match (buildBoard rows cols shuffled).checkRep with
  | Except.error e => Except.error e
  | Except.ok _ => Except.ok (buildBoard rows cols shuffled)

/-- In-place mutation of the card object at in-range 0-based coordinates; a
no-op when either index is out of range (the JavaScript code only ever mutates
a card it has successfully read). -/
def Board.modifyCard (b : Board) (r c : Nat) (f : Card → Card) : Board :=
  match b.board[r]? with
  | none => b
  | some rowArr =>
    match rowArr[c]? with
    | none => b
    | some card => { b with board := b.board.set r (rowArr.set c (f card)) }

/-- Lines 70-71 of the source, which set the target card state to revealed
and its controller to the player, applied at the (already bounds-checked)
1-based target coordinates. -/
def Board.afterReveal (b : Board) (row col : Int) (player : String) : Board :=
  b.modifyCard (row - 1).toNat (col - 1).toNat fun cd =>
    { cd with state := CardState.revealed, controlledBy := some player }

/-- An entry of the `revealed` scan list of `Board.flip`: 0-based coordinates
and the value of a card found revealed and controlled by the player. -/
structure RevealedCard where
  r : Nat
  c : Nat
  value : String
deriving DecidableEq, Repr

/-- The scan of `Board.flip` (lines 74-84): walk `rows × cols` cells in
row-major order, skipping missing rows and cells, and collect every card in
state revealed whose controller is the given player. -/
def Board.revealedOf (b : Board) (player : String) : List RevealedCard :=
  (List.range b.rows).flatMap fun rr =>
    match b.board[rr]? with
    | none => []
    | some checkRow =>
      (List.range b.cols).filterMap fun cc =>
        match checkRow[cc]? with
        | none => none
        | some check =>
          if check.state = CardState.revealed ∧ check.controlledBy = some player then
            some { r := rr, c := cc, value := check.value }
          else none

/-- One step of the resolution loops of `Board.flip` (lines 91-98 and
103-110): set the card at the recorded coordinates to the given state and
clear its controller, skipping silently when the coordinates no longer
resolve (the "safe access" guards of the source). -/
def Board.resolveAt (b : Board) (r c : Nat) (st : CardState) : Board :=
  b.modifyCard r c fun card => { card with state := st, controlledBy := none }

/-- The whole resolution loop: fold `resolveAt` over the scan list in order. -/
def Board.resolveAll (b : Board) (L : List RevealedCard) (st : CardState) : Board :=
  L.foldl (fun acc rc => acc.resolveAt rc.r rc.c st) b

/-- The result record of `Board.flip`. -/
structure FlipResult where
  success : Bool
  message : String
  boardView : List (List PublicCard)
deriving DecidableEq, Repr

/-- The common exit of the successful `flip` branches: run `checkRep`
(propagating its throw) and return success with the given message and the
view the caller gets of the final board. -/
def Board.flipFinish (b : Board) (player : String) (msg : String) :
    Except String (FlipResult × Board) :=
  match b.checkRep with
  | Except.error e => Except.error e
  | Except.ok _ =>
    Except.ok ({ success := true, message := msg, boardView := b.look player }, b)

/-- Lines 86-117 of the source, starting from the state `b1` in which the
target card has just been revealed: if the scan finds exactly two cards, a
value comparison of its first two entries decides between the match branch
(both set to matched, message "Match!") and the mismatch branch (both reset
face-down, message "Not a match."); otherwise the flip simply reports "Card
flipped". An undefined first or second entry falls into the mismatch branch,
matching the if-else shape of lines 89-113 of the source. -/
def Board.flipResolve (b1 : Board) (player : String) :
    Except String (FlipResult × Board) :=
  let revealed := b1.revealedOf player
  if revealed.length = 2 then
    match revealed[0]?, revealed[1]? with
    | some card1, some card2 =>
      if card1.value = card2.value then
        (b1.resolveAll revealed CardState.matched).flipFinish player "Match!"
      else
        (b1.resolveAll revealed CardState.faceDown).flipFinish player "Not a match."
    | _, _ =>
      (b1.resolveAll revealed CardState.faceDown).flipFinish player "Not a match."
  else
    b1.flipFinish player "Card flipped"

/-- Method flip of the source: translate the 1-based
coordinates, reject a missing row, a missing column, or a target that is not
face-down (each an ordinary `success=false` result carrying the unchanged
view of the caller), otherwise reveal the target and resolve the scan list
of the player. -/
def Board.flip (b : Board) (row col : Int) (player : String) :
    Except String (FlipResult × Board) :=
  match listGetI b.board (row - 1) with
  | none =>
    Except.ok ({ success := false, message := "Row out of bounds",
                 boardView := b.look player }, b)
  | some rowArr =>
    match listGetI rowArr (col - 1) with
    | none =>
      Except.ok ({ success := false, message := "Column out of bounds",
                   boardView := b.look player }, b)
    | some card =>
      if card.state ≠ CardState.faceDown then
        Except.ok ({ success := false, message := "Cannot flip",
                     boardView := b.look player }, b)
      else
        (b.afterReveal row col player).flipResolve player

/-- The `look` method as a state transformer: its body only reads the grid
(`Array.prototype.map` builds fresh arrays and assigns nothing), so the
embedded operation returns the board component unchanged. -/
def Board.lookOp (b : Board) (player : String) :
    List (List PublicCard) × Board :=
  (b.look player, b)

/-- A card satisfies the controller invariant of the spec when its controller
field is set exactly when its state is revealed. -/
def Card.ControllerOK (card : Card) : Prop :=
  card.controlledBy.isSome = true ↔ card.state = CardState.revealed

instance (card : Card) : Decidable card.ControllerOK := by
  unfold Card.ControllerOK; infer_instance

/-- The controller invariant over the whole grid. -/
def Board.ControllerInv (b : Board) : Prop :=
  ∀ row ∈ b.board, ∀ card ∈ row, card.ControllerOK

instance (b : Board) : Decidable b.ControllerInv := by
  unfold Board.ControllerInv; infer_instance

/-- The reachable board states: those produced by the constructor (for some
permutation outcome) followed by any sequence of successful `flip` calls. -/
inductive Reachable : Board → Prop
  | init (rows cols : Nat) (shuffled : List String) (b : Board) :
      mkBoard rows cols shuffled = Except.ok b → Reachable b
  | step (b : Board) (row col : Int) (player : String) (res : FlipResult)
      (b' : Board) : Reachable b → b.flip row col player = Except.ok (res, b') →
      Reachable b'

/-- The row-major list of all cell values of a board. -/
def cellValues (b : Board) : List String :=
  (b.board.map fun row => row.map Card.value).flatten


/-- A 1 by 2 sample board: the first card is revealed by player p, the second
face-down; both carry value A. -/
def bPairAA : Board :=
  { rows := 1, cols := 2,
    board := [[{ value := "A", state := CardState.revealed, controlledBy := some "p" },
               { value := "A", state := CardState.faceDown, controlledBy := none }]] }

/-- A 1 by 1 sample board whose single card is revealed by player p. -/
def bRevealed : Board :=
  { rows := 1, cols := 1,
    board := [[{ value := "A", state := CardState.revealed, controlledBy := some "p" }]] }

/-- A 1 by 1 sample board whose single card is face-down with value A. -/
def bFaceDown : Board :=
  { rows := 1, cols := 1,
    board := [[{ value := "A", state := CardState.faceDown, controlledBy := none }]] }

/-! ### Basic lemmas about the embedded operations -/

theorem listGetI_of_nonneg {l : List α} {i : Int} (h : 0 ≤ i) :
    listGetI l i = l[i.toNat]? := by
  simp [listGetI, Int.not_lt.mpr h]

theorem listGetI_of_neg {l : List α} {i : Int} (h : i < 0) :
    listGetI l i = none := by
  simp [listGetI, h]

theorem Board.modifyCard_eq {b : Board} {r c : Nat} {rowArr : List Card}
    {card : Card} (h1 : b.board[r]? = some rowArr) (h2 : rowArr[c]? = some card)
    (f : Card → Card) :
    b.modifyCard r c f = { b with board := b.board.set r (rowArr.set c (f card)) } := by
  simp only [Board.modifyCard, h1, h2]

theorem Board.modifyCard_eq_self_row {b : Board} {r c : Nat}
    (h1 : b.board[r]? = none) (f : Card → Card) : b.modifyCard r c f = b := by
  simp only [Board.modifyCard, h1]

theorem Board.modifyCard_eq_self_col {b : Board} {r c : Nat} {rowArr : List Card}
    (h1 : b.board[r]? = some rowArr) (h2 : rowArr[c]? = none) (f : Card → Card) :
    b.modifyCard r c f = b := by
  simp only [Board.modifyCard, h1, h2]

theorem Board.cardAt?_eq {b : Board} {r c : Nat} {rowArr : List Card}
    (h1 : b.board[r]? = some rowArr) : b.cardAt? r c = rowArr[c]? := by
  simp only [Board.cardAt?, h1]

theorem Board.cardAt?_eq_none {b : Board} {r c : Nat}
    (h1 : b.board[r]? = none) : b.cardAt? r c = none := by
  simp only [Board.cardAt?, h1]

theorem Board.rows_modifyCard (b : Board) (r c : Nat) (f : Card → Card) :
    (b.modifyCard r c f).rows = b.rows := by
  cases h1 : b.board[r]? with
  | none => rw [Board.modifyCard_eq_self_row h1]
  | some rowArr => cases h2 : rowArr[c]? with
    | none => rw [Board.modifyCard_eq_self_col h1 h2]
    | some card => rw [Board.modifyCard_eq h1 h2]

theorem Board.cols_modifyCard (b : Board) (r c : Nat) (f : Card → Card) :
    (b.modifyCard r c f).cols = b.cols := by
  cases h1 : b.board[r]? with
  | none => rw [Board.modifyCard_eq_self_row h1]
  | some rowArr => cases h2 : rowArr[c]? with
    | none => rw [Board.modifyCard_eq_self_col h1 h2]
    | some card => rw [Board.modifyCard_eq h1 h2]

theorem Board.cardAt?_modifyCard_self {b : Board} {r c : Nat} {card : Card}
    (f : Card → Card) (h : b.cardAt? r c = some card) :
    (b.modifyCard r c f).cardAt? r c = some (f card) := by
  cases h1 : b.board[r]? with
  | none => rw [Board.cardAt?_eq_none h1] at h; exact absurd h (by simp)
  | some rowArr =>
    rw [Board.cardAt?_eq h1] at h
    rw [Board.modifyCard_eq h1 h f]
    have hr : r < b.board.length := (List.getElem?_eq_some_iff.mp h1).1
    have hrow : (b.board.set r (rowArr.set c (f card)))[r]? = some (rowArr.set c (f card)) := by
      rw [List.getElem?_set_self', h1]; rfl
    rw [Board.cardAt?_eq hrow]
    have hc : c < rowArr.length := (List.getElem?_eq_some_iff.mp h).1
    rw [List.getElem?_set_self', h]
    rfl

theorem Board.cardAt?_modifyCard_ne {b : Board} {r c : Nat} (f : Card → Card)
    (r' c' : Nat) (hne : r' ≠ r ∨ c' ≠ c) :
    (b.modifyCard r c f).cardAt? r' c' = b.cardAt? r' c' := by
  cases h1 : b.board[r]? with
  | none => rw [Board.modifyCard_eq_self_row h1]
  | some rowArr =>
    cases h2 : rowArr[c]? with
    | none => rw [Board.modifyCard_eq_self_col h1 h2]
    | some card =>
      rw [Board.modifyCard_eq h1 h2]
      rcases Decidable.em (r' = r) with hr | hr
      · subst hr
        rcases hne with hne | hne
        · exact absurd rfl hne
        · have hrow : (b.board.set r' (rowArr.set c (f card)))[r']? =
              some (rowArr.set c (f card)) := by
            rw [List.getElem?_set_self', h1]; rfl
          rw [Board.cardAt?_eq hrow, Board.cardAt?_eq h1]
          exact List.getElem?_set_ne (fun hcc => hne hcc.symm)
      · have hrow : (b.board.set r (rowArr.set c (f card)))[r']? = b.board[r']? :=
          List.getElem?_set_ne (fun hrr => hr hrr.symm)
        cases h3 : b.board[r']? with
        | none =>
          rw [Board.cardAt?_eq_none h3, Board.cardAt?_eq_none (hrow.trans h3)]
        | some otherRow =>
          rw [Board.cardAt?_eq h3, Board.cardAt?_eq (hrow.trans h3)]

theorem Board.isSome_cardAt?_modifyCard (b : Board) (r c : Nat) (f : Card → Card)
    (r' c' : Nat) :
    ((b.modifyCard r c f).cardAt? r' c').isSome = (b.cardAt? r' c').isSome := by
  rcases Decidable.em (r' = r ∧ c' = c) with ⟨hr, hc⟩ | hne
  · subst hr; subst hc
    cases h : b.cardAt? r' c' with
    | none =>
      cases h1 : b.board[r']? with
      | none => rw [Board.modifyCard_eq_self_row h1, h]
      | some rowArr =>
        rw [Board.cardAt?_eq h1] at h
        rw [Board.modifyCard_eq_self_col h1 h, Board.cardAt?_eq h1, h]
    | some card => simp [Board.cardAt?_modifyCard_self f h, h]
  · rw [Board.cardAt?_modifyCard_ne f r' c' (by tauto)]

theorem Board.WF_modifyCard {b : Board} (r c : Nat) (f : Card → Card)
    (hwf : b.WF) : (b.modifyCard r c f).WF := by
  obtain ⟨hlen, hcols⟩ := hwf
  cases h1 : b.board[r]? with
  | none => rw [Board.modifyCard_eq_self_row h1]; exact ⟨hlen, hcols⟩
  | some rowArr =>
    cases h2 : rowArr[c]? with
    | none => rw [Board.modifyCard_eq_self_col h1 h2]; exact ⟨hlen, hcols⟩
    | some card =>
      rw [Board.modifyCard_eq h1 h2]
      refine ⟨by simpa using hlen, ?_⟩
      intro row hrow
      rcases List.mem_or_eq_of_mem_set hrow with hmem | heq
      · exact hcols row hmem
      · subst heq
        rw [List.length_set]
        exact hcols rowArr (List.getElem?_mem h1)

theorem Board.ControllerInv_modifyCard {b : Board} (r c : Nat) {f : Card → Card}
    (hf : ∀ cd, (f cd).ControllerOK) (hinv : b.ControllerInv) :
    (b.modifyCard r c f).ControllerInv := by
  cases h1 : b.board[r]? with
  | none => rw [Board.modifyCard_eq_self_row h1]; exact hinv
  | some rowArr =>
    cases h2 : rowArr[c]? with
    | none => rw [Board.modifyCard_eq_self_col h1 h2]; exact hinv
    | some card =>
      rw [Board.modifyCard_eq h1 h2]
      intro row hrow cd hcd
      rcases List.mem_or_eq_of_mem_set hrow with hmem | heq
      · exact hinv row hmem cd hcd
      · subst heq
        rcases List.mem_or_eq_of_mem_set hcd with hmem | heq
        · exact hinv rowArr (List.getElem?_mem h1) cd hmem
        · subst heq; exact hf card

theorem Board.value_cardAt?_modifyCard (b : Board) (r c : Nat) {f : Card → Card}
    (hf : ∀ cd, (f cd).value = cd.value) (r' c' : Nat) :
    ((b.modifyCard r c f).cardAt? r' c').map Card.value =
      (b.cardAt? r' c').map Card.value := by
  rcases Decidable.em (r' = r ∧ c' = c) with ⟨hr, hc⟩ | hne
  · subst hr; subst hc
    cases h : b.cardAt? r' c' with
    | none =>
      cases h1 : b.board[r']? with
      | none => rw [Board.modifyCard_eq_self_row h1, h]
      | some rowArr =>
        rw [Board.cardAt?_eq h1] at h
        rw [Board.modifyCard_eq_self_col h1 h, Board.cardAt?_eq h1, h]
    | some card =>
      simp [Board.cardAt?_modifyCard_self f h, h, hf]
  · rw [Board.cardAt?_modifyCard_ne f r' c' (by tauto)]

theorem Board.checkRep_eq_ok_iff (b : Board) :
    b.checkRep = Except.ok () ↔ b.WF := by
  unfold Board.checkRep Board.WF
  by_cases hlen : b.board.length = b.rows
  · by_cases hall : ∀ row ∈ b.board, row.length = b.cols
    · have hany : (b.board.any fun row => decide ¬row.length = b.cols) = false := by
        rw [List.any_eq_false]
        intro row hrow
        simpa using hall row hrow
      simp [hlen, hany, hall]
    · have hany : (b.board.any fun row => decide ¬row.length = b.cols) = true := by
        rw [List.any_eq_true]
        push_neg at hall
        obtain ⟨row, hrow, hne⟩ := hall
        exact ⟨row, hrow, by simpa using hne⟩
      simp [hlen, hany, hall]
  · simp [hlen]

theorem Board.checkRep_eq_ok {b : Board} (hwf : b.WF) :
    b.checkRep = Except.ok () :=
  (Board.checkRep_eq_ok_iff b).mpr hwf

theorem viewAt?_look (b : Board) (player : String) (r c : Nat) :
    viewAt? (b.look player) r c = Option.map (lookCard player) (b.cardAt? r c) := by
  unfold viewAt? Board.look Board.cardAt?
  rw [List.getElem?_map]
  cases h : b.board[r]? with
  | none => rfl
  | some row => simp [List.getElem?_map]

theorem viewAt?_map (b : Board) (r c : Nat) :
    viewAt? b.map r c = Option.map mapCard (b.cardAt? r c) := by
  unfold viewAt? Board.map Board.cardAt?
  rw [List.getElem?_map]
  cases h : b.board[r]? with
  | none => rfl
  | some row => simp [List.getElem?_map]

theorem Board.mem_revealedOf (b : Board) (player : String) (rc : RevealedCard) :
    rc ∈ b.revealedOf player ↔
      rc.r < b.rows ∧ rc.c < b.cols ∧
      ∃ card, b.cardAt? rc.r rc.c = some card ∧
        card.state = CardState.revealed ∧ card.controlledBy = some player ∧
        card.value = rc.value := by
  unfold Board.revealedOf
  rw [List.mem_flatMap]
  constructor
  · rintro ⟨rr, hrr, hmem⟩
    rw [List.mem_range] at hrr
    cases h1 : b.board[rr]? with
    | none => rw [h1] at hmem; exact absurd hmem (List.not_mem_nil rc)
    | some checkRow =>
      rw [h1] at hmem
      rw [List.mem_filterMap] at hmem
      obtain ⟨cc, hcc, hsome⟩ := hmem
      rw [List.mem_range] at hcc
      cases h2 : checkRow[cc]? with
      | none => rw [h2] at hsome; exact absurd hsome (by simp)
      | some check =>
        rw [h2] at hsome
        replace hsome :
            (if check.state = CardState.revealed ∧ check.controlledBy = some player
              then some { r := rr, c := cc, value := check.value }
              else none) = some rc := hsome
        by_cases hcond : check.state = CardState.revealed ∧ check.controlledBy = some player
        · rw [if_pos hcond] at hsome
          have heq : ({ r := rr, c := cc, value := check.value } : RevealedCard) = rc :=
            Option.some_injective _ hsome
          subst heq
          refine ⟨hrr, hcc, check, ?_, hcond.1, hcond.2, rfl⟩
          rw [Board.cardAt?_eq h1]
          exact h2
        · rw [if_neg hcond] at hsome
          exact absurd hsome (by simp)
  · rintro ⟨hr, hc, card, hcard, hst, hctl, hval⟩
    refine ⟨rc.r, List.mem_range.mpr hr, ?_⟩
    cases h1 : b.board[rc.r]? with
    | none => rw [Board.cardAt?_eq_none h1] at hcard; exact absurd hcard (by simp)
    | some checkRow =>
      rw [Board.cardAt?_eq h1] at hcard
      rw [List.mem_filterMap]
      refine ⟨rc.c, List.mem_range.mpr hc, ?_⟩
      rw [hcard]
      show (if card.state = CardState.revealed ∧ card.controlledBy = some player
        then some { r := rc.r, c := rc.c, value := card.value }
        else none) = some rc
      rw [if_pos ⟨hst, hctl⟩, hval]

theorem Board.rows_resolveAt (b : Board) (r c : Nat) (st : CardState) :
    (b.resolveAt r c st).rows = b.rows :=
  Board.rows_modifyCard b r c _

theorem Board.cols_resolveAt (b : Board) (r c : Nat) (st : CardState) :
    (b.resolveAt r c st).cols = b.cols :=
  Board.cols_modifyCard b r c _

theorem Board.resolveAll_cons (b : Board) (q : RevealedCard)
    (L : List RevealedCard) (st : CardState) :
    b.resolveAll (q :: L) st = (b.resolveAt q.r q.c st).resolveAll L st := rfl

theorem Board.rows_resolveAll (b : Board) (L : List RevealedCard) (st : CardState) :
    (b.resolveAll L st).rows = b.rows := by
  induction L generalizing b with
  | nil => rfl
  | cons q L ih => rw [Board.resolveAll_cons, ih, Board.rows_resolveAt]

theorem Board.cols_resolveAll (b : Board) (L : List RevealedCard) (st : CardState) :
    (b.resolveAll L st).cols = b.cols := by
  induction L generalizing b with
  | nil => rfl
  | cons q L ih => rw [Board.resolveAll_cons, ih, Board.cols_resolveAt]

theorem Board.cardAt?_resolveAll_of_notMem (st : CardState) (r c : Nat) :
    ∀ (L : List RevealedCard) (b : Board),
      (∀ rc ∈ L, ¬(rc.r = r ∧ rc.c = c)) →
      (b.resolveAll L st).cardAt? r c = b.cardAt? r c := by
  intro L
  induction L with
  | nil => intro b _; rfl
  | cons q L ih =>
    intro b h
    rw [Board.resolveAll_cons, ih _ (fun rc hrc => h rc (List.mem_cons_of_mem q hrc))]
    have hq := h q (List.mem_cons_self q L)
    refine Board.cardAt?_modifyCard_ne _ r c ?_
    by_contra hcon
    push_neg at hcon
    exact hq ⟨hcon.1.symm, hcon.2.symm⟩

theorem Board.isSome_cardAt?_resolveAt (b : Board) (r c : Nat) (st : CardState)
    (r' c' : Nat) :
    ((b.resolveAt r c st).cardAt? r' c').isSome = (b.cardAt? r' c').isSome :=
  Board.isSome_cardAt?_modifyCard b r c _ r' c'

theorem Board.value_cardAt?_resolveAt (b : Board) (r c : Nat) (st : CardState)
    (r' c' : Nat) :
    ((b.resolveAt r c st).cardAt? r' c').map Card.value =
      (b.cardAt? r' c').map Card.value :=
  @Board.value_cardAt?_modifyCard b r c
    (fun card => { card with state := st, controlledBy := none }) (fun _ => rfl) r' c'

theorem Board.cardAt?_resolveAll_of_mem (st : CardState) :
    ∀ (L : List RevealedCard) (b : Board) (r c : Nat),
      ((r, c) ∈ L.map fun rc => (rc.r, rc.c)) →
      (b.cardAt? r c).isSome = true →
      ∃ card, (b.resolveAll L st).cardAt? r c = some card ∧
        card.state = st ∧ card.controlledBy = none := by
  intro L
  induction L with
  | nil => intro b r c hmem; exact absurd hmem (by simp)
  | cons q L ih =>
    intro b r c hmem hsome
    rw [Board.resolveAll_cons]
    by_cases hL : (r, c) ∈ L.map fun rc => (rc.r, rc.c)
    · refine ih _ r c hL ?_
      rw [Board.isSome_cardAt?_resolveAt]
      exact hsome
    · have hq : q.r = r ∧ q.c = c := by
        rcases List.mem_map.mp hmem with ⟨rc, hrc, heq⟩
        rcases List.mem_cons.mp hrc with rfl | hmem'
        · exact ⟨congrArg Prod.fst heq, congrArg Prod.snd heq⟩
        · exact absurd (List.mem_map.mpr ⟨rc, hmem', heq⟩) hL
      obtain ⟨hqr, hqc⟩ := hq
      subst hqr; subst hqc
      obtain ⟨card, hcard⟩ := Option.isSome_iff_exists.mp hsome
      have hset := Board.cardAt?_modifyCard_self
        (fun cd => { cd with state := st, controlledBy := none }) hcard
      rw [Board.cardAt?_resolveAll_of_notMem st q.r q.c L _ ?hfree]
      · exact ⟨_, hset, rfl, rfl⟩
      case hfree =>
        intro rc hrc hcon
        exact hL (List.mem_map.mpr ⟨rc, hrc, by rw [hcon.1, hcon.2]⟩)

theorem Board.WF_resolveAll {st : CardState} :
    ∀ (L : List RevealedCard) {b : Board}, b.WF → (b.resolveAll L st).WF := by
  intro L
  induction L with
  | nil => intro b h; exact h
  | cons q L ih =>
    intro b h
    rw [Board.resolveAll_cons]
    exact ih (Board.WF_modifyCard _ _ _ h)

theorem Board.ControllerInv_resolveAll {st : CardState}
    (hst : st ≠ CardState.revealed) :
    ∀ (L : List RevealedCard) {b : Board}, b.ControllerInv →
      (b.resolveAll L st).ControllerInv := by
  intro L
  induction L with
  | nil => intro b h; exact h
  | cons q L ih =>
    intro b h
    rw [Board.resolveAll_cons]
    refine ih (Board.ControllerInv_modifyCard _ _ ?_ h)
    intro cd
    unfold Card.ControllerOK
    simp [hst]

theorem Board.value_cardAt?_resolveAll (st : CardState) (r' c' : Nat) :
    ∀ (L : List RevealedCard) (b : Board),
      ((b.resolveAll L st).cardAt? r' c').map Card.value =
        (b.cardAt? r' c').map Card.value := by
  intro L
  induction L with
  | nil => intro b; rfl
  | cons q L ih =>
    intro b
    rw [Board.resolveAll_cons, ih, Board.value_cardAt?_resolveAt]

theorem Board.rows_afterReveal (b : Board) (row col : Int) (player : String) :
    (b.afterReveal row col player).rows = b.rows :=
  Board.rows_modifyCard b _ _ _

theorem Board.cols_afterReveal (b : Board) (row col : Int) (player : String) :
    (b.afterReveal row col player).cols = b.cols :=
  Board.cols_modifyCard b _ _ _

theorem Board.WF_afterReveal {b : Board} (row col : Int) (player : String)
    (hwf : b.WF) : (b.afterReveal row col player).WF :=
  Board.WF_modifyCard _ _ _ hwf

theorem Board.ControllerInv_afterReveal {b : Board} (row col : Int)
    (player : String) (hinv : b.ControllerInv) :
    (b.afterReveal row col player).ControllerInv := by
  refine Board.ControllerInv_modifyCard _ _ ?_ hinv
  intro cd
  unfold Card.ControllerOK
  simp

theorem Board.flipFinish_eq_ok {b : Board} (player msg : String) (hwf : b.WF) :
    b.flipFinish player msg =
      Except.ok ({ success := true, message := msg, boardView := b.look player }, b) := by
  unfold Board.flipFinish
  rw [Board.checkRep_eq_ok hwf]

theorem Board.flipFinish_ok_inv {b : Board} {player msg : String}
    {res : FlipResult} {b' : Board}
    (h : b.flipFinish player msg = Except.ok (res, b')) :
    b' = b ∧ res = { success := true, message := msg, boardView := b.look player } := by
  unfold Board.flipFinish at h
  cases hc : b.checkRep with
  | error e => rw [hc] at h; exact absurd h (by simp)
  | ok u =>
    rw [hc] at h
    cases u
    have h' := Except.ok.inj h
    have hb := congrArg Prod.snd h'
    have hres := congrArg Prod.fst h'
    simp only at hb hres
    exact ⟨hb.symm, hres.symm⟩

theorem exceptPair_inv {ε α β : Type} {x ok1 : α} {y ok2 : β}
    (h : (Except.ok (x, y) : Except ε (α × β)) = Except.ok (ok1, ok2)) :
    x = ok1 ∧ y = ok2 := by
  have h' := Except.ok.inj h
  exact ⟨congrArg Prod.fst h', congrArg Prod.snd h'⟩

theorem Board.flip_eq_row_oob {b : Board} {row col : Int} {player : String}
    (h : listGetI b.board (row - 1) = none) :
    b.flip row col player = Except.ok
      ({ success := false, message := "Row out of bounds",
         boardView := b.look player }, b) := by
  simp only [Board.flip, h]

theorem Board.flip_eq_col_oob {b : Board} {row col : Int} {player : String}
    {rowArr : List Card} (h1 : listGetI b.board (row - 1) = some rowArr)
    (h2 : listGetI rowArr (col - 1) = none) :
    b.flip row col player = Except.ok
      ({ success := false, message := "Column out of bounds",
         boardView := b.look player }, b) := by
  simp only [Board.flip, h1, h2]

theorem Board.flip_eq_cannot {b : Board} {row col : Int} {player : String}
    {rowArr : List Card} {card : Card}
    (h1 : listGetI b.board (row - 1) = some rowArr)
    (h2 : listGetI rowArr (col - 1) = some card)
    (hst : card.state ≠ CardState.faceDown) :
    b.flip row col player = Except.ok
      ({ success := false, message := "Cannot flip",
         boardView := b.look player }, b) := by
  simp only [Board.flip, h1, h2, if_pos hst]

theorem Board.flip_eq_reveal {b : Board} {row col : Int} {player : String}
    {rowArr : List Card} {card : Card}
    (h1 : listGetI b.board (row - 1) = some rowArr)
    (h2 : listGetI rowArr (col - 1) = some card)
    (hst : card.state = CardState.faceDown) :
    b.flip row col player = (b.afterReveal row col player).flipResolve player := by
  simp only [Board.flip, h1, h2, hst, ne_eq, not_true_eq_false, if_false]

theorem Board.flipResolve_eq_single {b1 : Board} {player : String}
    (h : (b1.revealedOf player).length ≠ 2) :
    b1.flipResolve player = b1.flipFinish player "Card flipped" := by
  simp only [Board.flipResolve, if_neg h]

theorem Board.flipResolve_eq_pair_eq {b1 : Board} {player : String}
    {x y : RevealedCard} (h : b1.revealedOf player = [x, y])
    (hv : x.value = y.value) :
    b1.flipResolve player =
      (b1.resolveAll [x, y] CardState.matched).flipFinish player "Match!" := by
  simp only [Board.flipResolve, h]
  simp [hv]

theorem Board.flipResolve_eq_pair_ne {b1 : Board} {player : String}
    {x y : RevealedCard} (h : b1.revealedOf player = [x, y])
    (hv : ¬x.value = y.value) :
    b1.flipResolve player =
      (b1.resolveAll [x, y] CardState.faceDown).flipFinish player "Not a match." := by
  simp only [Board.flipResolve, h]
  simp [hv]

theorem Board.flip_ok_cases {b : Board} {row col : Int} {player : String}
    {res : FlipResult} {b' : Board}
    (h : b.flip row col player = Except.ok (res, b')) :
    b' = b ∨
      ∃ rowArr card, listGetI b.board (row - 1) = some rowArr ∧
        listGetI rowArr (col - 1) = some card ∧
        card.state = CardState.faceDown ∧
        (b' = b.afterReveal row col player ∨
          (((b.afterReveal row col player).revealedOf player).length = 2 ∧
            (b' = (b.afterReveal row col player).resolveAll
                ((b.afterReveal row col player).revealedOf player) CardState.matched ∨
              b' = (b.afterReveal row col player).resolveAll
                ((b.afterReveal row col player).revealedOf player) CardState.faceDown))) := by
  unfold Board.flip at h
  split at h
  · exact Or.inl (exceptPair_inv h).2.symm
  case h_2 rowArr harr =>
    split at h
    · exact Or.inl (exceptPair_inv h).2.symm
    case h_2 card hcardeq =>
      split at h
      case isTrue => exact Or.inl (exceptPair_inv h).2.symm
      case isFalse hfd =>
        have hfd' : card.state = CardState.faceDown := by
          by_contra hcon
          exact hfd hcon
        refine Or.inr ⟨rowArr, card, harr, hcardeq, hfd', ?_⟩
        simp only [Board.flipResolve] at h
        split at h
        case isTrue hlen =>
          split at h
          case h_1 card1 card2 heq1 heq2 =>
            split at h
            · exact Or.inr ⟨hlen, Or.inl (Board.flipFinish_ok_inv h).1⟩
            · exact Or.inr ⟨hlen, Or.inr (Board.flipFinish_ok_inv h).1⟩
          case h_2 =>
            exact Or.inr ⟨hlen, Or.inr (Board.flipFinish_ok_inv h).1⟩
        case isFalse hlen =>
          exact Or.inl (Board.flipFinish_ok_inv h).1

theorem Board.listGetI_board_some {b : Board} (hwf : b.WF) {row : Int}
    (h1 : 1 ≤ row) (h2 : row ≤ (b.rows : Int)) :
    ∃ rowArr, listGetI b.board (row - 1) = some rowArr ∧
      b.board[(row - 1).toNat]? = some rowArr ∧ rowArr.length = b.cols := by
  have hlt : (row - 1).toNat < b.board.length := by rw [hwf.1]; omega
  refine ⟨b.board[(row - 1).toNat], ?_, ?_, ?_⟩
  · rw [listGetI_of_nonneg (by omega)]
    exact List.getElem?_eq_getElem hlt
  · exact List.getElem?_eq_getElem hlt
  · exact hwf.2 _ (List.getElem_mem hlt)

theorem Board.listGetI_board_none {b : Board} (hwf : b.WF) {row : Int}
    (h : row < 1 ∨ (b.rows : Int) < row) :
    listGetI b.board (row - 1) = none := by
  rcases h with h | h
  · exact listGetI_of_neg (by omega)
  · rw [listGetI_of_nonneg (by omega)]
    apply List.getElem?_eq_none
    rw [hwf.1]
    omega

theorem Board.listGetI_target {b : Board} (hwf : b.WF) {row col : Int}
    (h1 : 1 ≤ row) (h2 : row ≤ (b.rows : Int)) (h3 : 1 ≤ col)
    (_h4 : col ≤ (b.cols : Int)) {card : Card}
    (hcard : b.cardAt? (row - 1).toNat (col - 1).toNat = some card) :
    ∃ rowArr, listGetI b.board (row - 1) = some rowArr ∧
      listGetI rowArr (col - 1) = some card := by
  obtain ⟨rowArr, hsome, hget, hlen⟩ := Board.listGetI_board_some hwf h1 h2
  refine ⟨rowArr, hsome, ?_⟩
  rw [listGetI_of_nonneg (by omega)]
  rw [Board.cardAt?_eq hget] at hcard
  exact hcard

theorem range_map_getD (l : List String) :
    ∀ N : Nat, (List.range N).map (fun i => l.getD i "") =
      l.take N ++ List.replicate (N - l.length) "" := by
  intro N
  induction N with
  | zero => simp
  | succ n ih =>
    rw [List.range_succ, List.map_append, ih]
    by_cases hn : n < l.length
    · have h1 : n + 1 - l.length = 0 := by omega
      have h2 : n - l.length = 0 := by omega
      rw [h1, h2]
      simp only [List.replicate_zero, List.append_nil, List.map_cons, List.map_nil]
      rw [List.take_succ]
      simp [List.getElem?_eq_getElem hn]
    · push_neg at hn
      have h1 : l.take n = l := List.take_of_length_le hn
      have h2 : l.take (n + 1) = l := List.take_of_length_le (by omega)
      rw [h1, h2]
      have h3 : n + 1 - l.length = (n - l.length) + 1 := by omega
      rw [h3, List.replicate_succ']
      have h4 : l.getD n "" = "" := by
        rw [List.getD_eq_getElem?_getD, List.getElem?_eq_none hn]
        rfl
      simp [List.getElem?_eq_none hn, List.append_assoc]

theorem flatten_grid (cols : Nat) (f : Nat → String) :
    ∀ rows : Nat,
      ((List.range rows).map fun r =>
        (List.range cols).map fun c => f (r * cols + c)).flatten =
      (List.range (rows * cols)).map f := by
  intro rows
  induction rows with
  | zero => simp
  | succ n ih =>
    rw [List.range_succ, List.map_append, List.flatten_append, ih]
    simp only [List.map_cons, List.map_nil, List.flatten_cons, List.flatten_nil,
      List.append_nil]
    rw [Nat.succ_mul, List.range_add, List.map_append, List.map_map]
    rfl

theorem cellValues_buildBoard (rows cols : Nat) (shuffled : List String) :
    cellValues (buildBoard rows cols shuffled) =
      shuffled.take (rows * cols) ++
        List.replicate (rows * cols - shuffled.length) "" := by
  unfold cellValues buildBoard
  rw [List.map_map]
  have hfuse : ((fun row => List.map Card.value row) ∘ fun r =>
      List.map (fun c =>
        ({ value := shuffled.getD (r * cols + c) "", state := CardState.faceDown,
           controlledBy := none } : Card)) (List.range cols)) =
      fun r => List.map (fun c => shuffled.getD (r * cols + c) "") (List.range cols) := by
    funext r
    simp [List.map_map, Function.comp]
  rw [hfuse, flatten_grid cols (fun i => shuffled.getD i "") rows]
  exact range_map_getD shuffled (rows * cols)

theorem buildBoard_WF (rows cols : Nat) (shuffled : List String) :
    (buildBoard rows cols shuffled).WF := by
  constructor
  · simp [buildBoard]
  · intro row hrow
    simp only [buildBoard, List.mem_map] at hrow
    obtain ⟨r, _, rfl⟩ := hrow
    simp [buildBoard]

theorem mkBoard_eq_ok (rows cols : Nat) (shuffled : List String) :
    mkBoard rows cols shuffled = Except.ok (buildBoard rows cols shuffled) := by
  unfold mkBoard
  rw [Board.checkRep_eq_ok (buildBoard_WF rows cols shuffled)]

theorem buildBoard_cells (rows cols : Nat) (shuffled : List String) :
    ∀ row ∈ (buildBoard rows cols shuffled).board, ∀ card ∈ row,
      card.state = CardState.faceDown ∧ card.controlledBy = none := by
  intro row hrow card hcard
  simp only [buildBoard, List.mem_map] at hrow
  obtain ⟨r, _, rfl⟩ := hrow
  simp only [List.mem_map] at hcard
  obtain ⟨c, _, rfl⟩ := hcard
  exact ⟨rfl, rfl⟩

/-! ### The claims -/

/-- Claim C3: for coordinates with the row outside [1, rows] or the column
outside [1, cols], flip returns success=false with a message identifying the
invalid axis (row checked first), does not throw, and leaves the board
unchanged; the returned view is the current view the caller has of the
unchanged board. -/
theorem claim_flip_out_of_bounds (b : Board) (player : String) (row col : Int)
    (hwf : b.WF)
    (hout : row < 1 ∨ (b.rows : Int) < row ∨ col < 1 ∨ (b.cols : Int) < col) :
    b.flip row col player = Except.ok
      ({ success := false,
         message := if row < 1 ∨ (b.rows : Int) < row then "Row out of bounds"
           else "Column out of bounds",
         boardView := b.look player }, b) := by
  by_cases hrow : row < 1 ∨ (b.rows : Int) < row
  · rw [if_pos hrow]
    exact Board.flip_eq_row_oob (Board.listGetI_board_none hwf hrow)
  · rw [if_neg hrow]
    push_neg at hrow
    obtain ⟨rowArr, hsome, _, hlen⟩ := Board.listGetI_board_some hwf hrow.1 hrow.2
    have hcol : col < 1 ∨ (b.cols : Int) < col := by
      rcases hout with h | h | h | h
      · exact absurd h (by omega)
      · exact absurd h (by omega)
      · exact Or.inl h
      · exact Or.inr h
    refine Board.flip_eq_col_oob hsome ?_
    rcases hcol with h | h
    · exact listGetI_of_neg (by omega)
    · rw [listGetI_of_nonneg (by omega)]
      apply List.getElem?_eq_none
      rw [hlen]
      omega

/-- Witness for C3: flipping row 0 of a 1 by 1 board is rejected as a row
bounds failure and the board is unchanged. -/
theorem claim_flip_out_of_bounds_witness :
    bFaceDown.flip 0 1 "p" = Except.ok
      ({ success := false, message := "Row out of bounds",
         boardView := bFaceDown.look "p" }, bFaceDown) := by
  have h := claim_flip_out_of_bounds bFaceDown "p" 0 1 (by decide) (by decide)
  rw [if_pos (by decide : (0 : Int) < 1 ∨ (bFaceDown.rows : Int) < 0)] at h
  exact h

/-- Claim C4: an in-bounds flip whose target card is not face-down (already
revealed by any player, or matched) returns success=false with message
"Cannot flip", does not throw, and leaves the whole board unchanged. -/
theorem claim_flip_reflip_rejected (b : Board) (player : String) (row col : Int)
    (card : Card) (hwf : b.WF) (h1 : 1 ≤ row) (h2 : row ≤ (b.rows : Int))
    (h3 : 1 ≤ col) (h4 : col ≤ (b.cols : Int))
    (hcard : b.cardAt? (row - 1).toNat (col - 1).toNat = some card)
    (hst : card.state ≠ CardState.faceDown) :
    b.flip row col player = Except.ok
      ({ success := false, message := "Cannot flip",
         boardView := b.look player }, b) := by
  obtain ⟨rowArr, hsome, hcol⟩ := Board.listGetI_target hwf h1 h2 h3 h4 hcard
  exact Board.flip_eq_cannot hsome hcol hst

/-- Witness for C4: a card revealed by player p cannot be flipped again, even
by another player; the board is unchanged. -/
theorem claim_flip_reflip_rejected_witness :
    bRevealed.flip 1 1 "q" = Except.ok
      ({ success := false, message := "Cannot flip",
         boardView := bRevealed.look "q" }, bRevealed) :=
  claim_flip_reflip_rejected bRevealed "q" 1 1
    { value := "A", state := CardState.revealed, controlledBy := some "p" }
    (by decide) (by decide) (by decide) (by decide) (by decide) (by decide)
    (by decide)

/-- Claim C5: look reports a matched card with its true value and no
controller, a card revealed by the viewer with its true value and the viewer
as controller, and every other card (face-down, or revealed by someone else)
as hidden and face-down. In particular a card revealed by player B is hidden
from any other player A while B sees it revealed. -/
theorem claim_look_projection (b : Board) (player : String) (r c : Nat)
    (card : Card) (h : b.cardAt? r c = some card) :
    viewAt? (b.look player) r c = some
      (if card.state = CardState.matched then
        { value := some card.value, state := CardState.matched, controlledBy := none }
      else if card.state = CardState.revealed ∧ card.controlledBy = some player then
        { value := some card.value, state := CardState.revealed,
          controlledBy := some player }
      else { value := none, state := CardState.faceDown, controlledBy := none }) ∧
    (∀ A B : String, A ≠ B → card.state = CardState.revealed →
      card.controlledBy = some B →
      viewAt? (b.look A) r c =
        some { value := none, state := CardState.faceDown, controlledBy := none } ∧
      viewAt? (b.look B) r c =
        some { value := some card.value, state := CardState.revealed,
               controlledBy := some B }) := by
  constructor
  · rw [viewAt?_look, h]
    rfl
  · intro A B hAB hstate hctl
    constructor
    · rw [viewAt?_look, h]
      simp only [Option.map_some']
      unfold lookCard
      rw [if_neg (by rw [hstate]; decide)]
      rw [if_neg ?hne]
      case hne =>
        rintro ⟨-, hBA⟩
        rw [hctl] at hBA
        exact hAB (Option.some_inj.mp hBA).symm
    · rw [viewAt?_look, h]
      simp only [Option.map_some']
      unfold lookCard
      rw [if_neg (by rw [hstate]; decide), if_pos ⟨hstate, hctl⟩]

/-- Witness for C5: on a board whose single card is revealed by p, player q
sees it hidden face-down while p sees its value and state. -/
theorem claim_look_projection_witness :
    viewAt? (bRevealed.look "q") 0 0 =
      some { value := none, state := CardState.faceDown, controlledBy := none } ∧
    viewAt? (bRevealed.look "p") 0 0 =
      some { value := some "A", state := CardState.revealed,
             controlledBy := some "p" } :=
  (claim_look_projection bRevealed "q" 0 0
    { value := "A", state := CardState.revealed, controlledBy := some "p" }
    rfl).2 "q" "p" (by decide) rfl rfl

/-- Claim C6: an in-bounds flip of a face-down card whose resulting active
reveal set does not have size 2 succeeds with message "Card flipped", the
target becomes revealed and controlled by the player, and no other cell
changes. -/
theorem claim_flip_first_reveal (b : Board) (player : String) (row col : Int)
    (card : Card) (hwf : b.WF) (h1 : 1 ≤ row) (h2 : row ≤ (b.rows : Int))
    (h3 : 1 ≤ col) (h4 : col ≤ (b.cols : Int))
    (hcard : b.cardAt? (row - 1).toNat (col - 1).toNat = some card)
    (hst : card.state = CardState.faceDown)
    (hlen : ((b.afterReveal row col player).revealedOf player).length ≠ 2) :
    b.flip row col player = Except.ok
      ({ success := true, message := "Card flipped",
         boardView := (b.afterReveal row col player).look player },
       b.afterReveal row col player) ∧
    (b.afterReveal row col player).cardAt? (row - 1).toNat (col - 1).toNat =
      some { card with state := CardState.revealed, controlledBy := some player } ∧
    ∀ r' c' : Nat, (r' ≠ (row - 1).toNat ∨ c' ≠ (col - 1).toNat) →
      (b.afterReveal row col player).cardAt? r' c' = b.cardAt? r' c' := by
  obtain ⟨rowArr, hsome, hcol⟩ := Board.listGetI_target hwf h1 h2 h3 h4 hcard
  refine ⟨?_, Board.cardAt?_modifyCard_self _ hcard,
    fun r' c' hne => Board.cardAt?_modifyCard_ne _ r' c' hne⟩
  rw [Board.flip_eq_reveal hsome hcol hst, Board.flipResolve_eq_single hlen,
    Board.flipFinish_eq_ok _ _ (Board.WF_afterReveal row col player hwf)]

/-- Witness for C6: the first flip on a fresh 1 by 1 board reports "Card
flipped" and reveals the target for the player. -/
theorem claim_flip_first_reveal_witness :
    bFaceDown.flip 1 1 "p" = Except.ok
      ({ success := true, message := "Card flipped",
         boardView := (bFaceDown.afterReveal 1 1 "p").look "p" },
       bFaceDown.afterReveal 1 1 "p") :=
  (claim_flip_first_reveal bFaceDown "p" 1 1
    { value := "A", state := CardState.faceDown, controlledBy := none }
    (by decide) (by decide) (by decide) (by decide) (by decide) (by decide)
    (by decide) (by decide)).1

/-- Claim C7: look is a pure read: as a state transformer it returns the
board with every cell and both dimensions unchanged, and a second call on
the returned state yields an equal view. -/
theorem claim_look_pure (b : Board) (player : String) :
    (b.lookOp player).2 = b ∧
    (∀ r c : Nat, ((b.lookOp player).2).cardAt? r c = b.cardAt? r c) ∧
    ((b.lookOp player).2).rows = b.rows ∧
    ((b.lookOp player).2).cols = b.cols ∧
    (((b.lookOp player).2).lookOp player).1 = (b.lookOp player).1 :=
  ⟨rfl, fun _ _ => rfl, rfl, rfl, rfl⟩

/-- Claim C1: when a flip succeeds on an in-bounds face-down card and the
active reveal set of the player then consists of exactly two cards x and y:
if their values are equal both become matched with controllers cleared and
the flip returns success=true "Match!"; if the values differ both are reset
face-down with controllers cleared and the flip returns success=true
"Not a match.". -/
theorem claim_flip_pair_resolution (b : Board) (player : String) (row col : Int)
    (card : Card) (x y : RevealedCard) (hwf : b.WF) (h1 : 1 ≤ row)
    (h2 : row ≤ (b.rows : Int)) (h3 : 1 ≤ col) (h4 : col ≤ (b.cols : Int))
    (hcard : b.cardAt? (row - 1).toNat (col - 1).toNat = some card)
    (hst : card.state = CardState.faceDown)
    (hrev : (b.afterReveal row col player).revealedOf player = [x, y]) :
    (x.value = y.value →
      b.flip row col player = Except.ok
        ({ success := true, message := "Match!",
           boardView := ((b.afterReveal row col player).resolveAll [x, y]
             CardState.matched).look player },
         (b.afterReveal row col player).resolveAll [x, y] CardState.matched) ∧
      ∀ rc ∈ [x, y], ∃ card',
        ((b.afterReveal row col player).resolveAll [x, y]
          CardState.matched).cardAt? rc.r rc.c = some card' ∧
        card'.state = CardState.matched ∧ card'.controlledBy = none) ∧
    (x.value ≠ y.value →
      b.flip row col player = Except.ok
        ({ success := true, message := "Not a match.",
           boardView := ((b.afterReveal row col player).resolveAll [x, y]
             CardState.faceDown).look player },
         (b.afterReveal row col player).resolveAll [x, y] CardState.faceDown) ∧
      ∀ rc ∈ [x, y], ∃ card',
        ((b.afterReveal row col player).resolveAll [x, y]
          CardState.faceDown).cardAt? rc.r rc.c = some card' ∧
        card'.state = CardState.faceDown ∧ card'.controlledBy = none) := by
  obtain ⟨rowArr, hsome, hcol⟩ := Board.listGetI_target hwf h1 h2 h3 h4 hcard
  have hwf1 : (b.afterReveal row col player).WF :=
    Board.WF_afterReveal row col player hwf
  have hpresent : ∀ rc ∈ [x, y],
      ((b.afterReveal row col player).cardAt? rc.r rc.c).isSome = true := by
    intro rc hrc
    have hmem : rc ∈ (b.afterReveal row col player).revealedOf player := by
      rw [hrev]; exact hrc
    obtain ⟨-, -, cd, hcd, -⟩ :=
      ((b.afterReveal row col player).mem_revealedOf player rc).mp hmem
    rw [hcd]; rfl
  have hresolved : ∀ st : CardState, ∀ rc ∈ [x, y], ∃ card',
      ((b.afterReveal row col player).resolveAll [x, y] st).cardAt? rc.r rc.c =
        some card' ∧ card'.state = st ∧ card'.controlledBy = none := by
    intro st rc hrc
    refine Board.cardAt?_resolveAll_of_mem st [x, y] _ rc.r rc.c ?_ (hpresent rc hrc)
    exact List.mem_map.mpr ⟨rc, hrc, rfl⟩
  constructor
  · intro hv
    refine ⟨?_, hresolved CardState.matched⟩
    rw [Board.flip_eq_reveal hsome hcol hst,
      Board.flipResolve_eq_pair_eq hrev hv,
      Board.flipFinish_eq_ok _ _ (Board.WF_resolveAll [x, y] hwf1)]
  · intro hv
    refine ⟨?_, hresolved CardState.faceDown⟩
    rw [Board.flip_eq_reveal hsome hcol hst,
      Board.flipResolve_eq_pair_ne hrev hv,
      Board.flipFinish_eq_ok _ _ (Board.WF_resolveAll [x, y] hwf1)]

/-- Witness for C1: on a 1 by 2 board where player p already reveals an A and
flips the second A, the flip resolves as a match. -/
theorem claim_flip_pair_resolution_witness :
    bPairAA.flip 1 2 "p" = Except.ok
      ({ success := true, message := "Match!",
         boardView := ((bPairAA.afterReveal 1 2 "p").resolveAll
           [{ r := 0, c := 0, value := "A" }, { r := 0, c := 1, value := "A" }]
           CardState.matched).look "p" },
       (bPairAA.afterReveal 1 2 "p").resolveAll
         [{ r := 0, c := 0, value := "A" }, { r := 0, c := 1, value := "A" }]
         CardState.matched) :=
  ((claim_flip_pair_resolution bPairAA "p" 1 2
    { value := "A", state := CardState.faceDown, controlledBy := none }
    { r := 0, c := 0, value := "A" } { r := 0, c := 1, value := "A" }
    (by decide) (by decide) (by decide) (by decide) (by decide) (by decide)
    (by decide) (by decide)).1 rfl).1

/-- Claim C2: every reachable board state (construction followed by any
sequence of flip calls) satisfies the controller invariant: the controller
of a card is set exactly when its state is revealed. -/
theorem claim_controller_invariant (b : Board) (h : Reachable b) :
    b.ControllerInv := by
  induction h with
  | init rows cols shuffled b hmk =>
    have hb : b = buildBoard rows cols shuffled := by
      rw [mkBoard_eq_ok] at hmk
      exact (Except.ok.inj hmk).symm
    subst hb
    intro rowL hrow cd hcd
    obtain ⟨hstate, hctl⟩ := buildBoard_cells rows cols shuffled rowL hrow cd hcd
    unfold Card.ControllerOK
    rw [hstate, hctl]
    simp
  | step b row col player res b' hreach hflip ih =>
    rcases Board.flip_ok_cases hflip with rfl | ⟨rowArr, card, -, -, -, hcases⟩
    · exact ih
    · have hinv1 : (b.afterReveal row col player).ControllerInv :=
        Board.ControllerInv_afterReveal row col player ih
      rcases hcases with rfl | ⟨-, rfl | rfl⟩
      · exact hinv1
      · exact Board.ControllerInv_resolveAll (by decide) _ hinv1
      · exact Board.ControllerInv_resolveAll (by decide) _ hinv1

/-- Witness for C2: a freshly constructed 1 by 1 board is reachable and its
single card satisfies the controller invariant. -/
theorem claim_controller_invariant_witness :
    Card.ControllerOK
      { value := "A", state := CardState.faceDown, controlledBy := none } :=
  claim_controller_invariant (buildBoard 1 1 ["A"])
    (Reachable.init 1 1 ["A"] (buildBoard 1 1 ["A"]) (mkBoard_eq_ok 1 1 ["A"]))
    [{ value := "A", state := CardState.faceDown, controlledBy := none }]
    (by decide)
    { value := "A", state := CardState.faceDown, controlledBy := none }
    (by decide)

/-- Counterexample for C8 as stated: on a board whose single card the viewer
p has revealed, the map view differs from p's own look view (look reports a
controller, map does not), although the card is revealed by p, not by another
player. -/
theorem claim_map_view_cex :
    bRevealed.cardAt? 0 0 = some
      { value := "A", state := CardState.revealed, controlledBy := some "p" } ∧
    viewAt? bRevealed.map 0 0 ≠ viewAt? (bRevealed.look "p") 0 0 := by
  decide

/-- Claim C8 (amended): map shows matched and revealed cards with their true
value and state and no controller, and hides face-down cards; its reported
value and state differ from the look of a given player exactly on cards revealed
and not controlled by that player (as full records, look additionally
reports a controller on the cards the viewer has revealed, which map omits). -/
theorem claim_map_view (b : Board) (player : String) (r c : Nat) (card : Card)
    (h : b.cardAt? r c = some card) :
    viewAt? b.map r c = some
      (if card.state = CardState.matched ∨ card.state = CardState.revealed then
        { value := some card.value, state := card.state, controlledBy := none }
      else { value := none, state := CardState.faceDown, controlledBy := none }) ∧
    (∀ pm pl : PublicCard, viewAt? b.map r c = some pm →
      viewAt? (b.look player) r c = some pl →
      ((pm.value ≠ pl.value ∨ pm.state ≠ pl.state) ↔
        (card.state = CardState.revealed ∧ card.controlledBy ≠ some player))) := by
  have hm : viewAt? b.map r c = some (mapCard card) := by
    rw [viewAt?_map, h]
    rfl
  have hl : viewAt? (b.look player) r c = some (lookCard player card) := by
    rw [viewAt?_look, h]
    rfl
  refine ⟨hm, ?_⟩
  intro pm pl hpm hpl
  have hpm' : pm = mapCard card := by
    rw [hm] at hpm
    exact (Option.some_inj.mp hpm).symm
  have hpl' : pl = lookCard player card := by
    rw [hl] at hpl
    exact (Option.some_inj.mp hpl).symm
  subst hpm'
  subst hpl'
  unfold mapCard lookCard
  cases hstate : card.state with
  | faceDown => simp
  | matched => simp
  | revealed =>
    by_cases hctl : card.controlledBy = some player
    · simp [hctl]
    · simp [hctl]

/-- Witness for C8 (amended): on the board whose single card p has revealed,
the map view and the look view of the other player q differ in reported
value and state, the card being revealed and not controlled by q. -/
theorem claim_map_view_witness :
    (({ value := some "A", state := CardState.revealed, controlledBy := none } :
        PublicCard).value ≠
      (({ value := none, state := CardState.faceDown, controlledBy := none } :
        PublicCard)).value ∨
      ({ value := some "A", state := CardState.revealed, controlledBy := none } :
        PublicCard).state ≠
      (({ value := none, state := CardState.faceDown, controlledBy := none } :
        PublicCard)).state) ↔
    (({ value := "A", state := CardState.revealed, controlledBy := some "p" } :
        Card).state = CardState.revealed ∧
      ({ value := "A", state := CardState.revealed, controlledBy := some "p" } :
        Card).controlledBy ≠ some "q") :=
  (claim_map_view bRevealed "q" 0 0
    { value := "A", state := CardState.revealed, controlledBy := some "p" }
    rfl).2
    { value := some "A", state := CardState.revealed, controlledBy := none }
    { value := none, state := CardState.faceDown, controlledBy := none }
    rfl rfl

/-- Counterexample for C9 as stated: for a 1 by 1 board constructed from the
two supplied values A then B, the shuffle outcome that swaps them puts B in
the single cell, so the cell multiset is not a permutation of the first
rows*cols supplied values. -/
theorem claim_construction_cex :
    List.Perm ["B", "A"] ["A", "B"] ∧
    mkBoard 1 1 ["B", "A"] = Except.ok (buildBoard 1 1 ["B", "A"]) ∧
    cellValues (buildBoard 1 1 ["B", "A"]) = ["B"] ∧
    ¬ List.Perm (cellValues (buildBoard 1 1 ["B", "A"]))
        (List.take (1 * 1) ["A", "B"]) := by
  refine ⟨by decide, mkBoard_eq_ok 1 1 ["B", "A"], rfl, by decide⟩

/-- Claim C9 (amended): for any dimensions and any shuffle outcome (a
permutation of the supplied values) construction succeeds, the defensive
check never firing; the grid has exactly rows rows of cols columns, every
cell is face-down with no controller, and the row-major cell values are the
first rows*cols values of the shuffled sequence padded with empty-string
placeholders; when at most rows*cols values are supplied the cell multiset
is exactly the supplied multiset plus the placeholders. -/
theorem claim_construction (rows cols : Nat) (cards shuffled : List String)
    (hperm : shuffled.Perm cards) :
    mkBoard rows cols shuffled = Except.ok (buildBoard rows cols shuffled) ∧
    (buildBoard rows cols shuffled).board.length = rows ∧
    (∀ row ∈ (buildBoard rows cols shuffled).board, row.length = cols) ∧
    (∀ row ∈ (buildBoard rows cols shuffled).board, ∀ card ∈ row,
      card.state = CardState.faceDown ∧ card.controlledBy = none) ∧
    cellValues (buildBoard rows cols shuffled) =
      shuffled.take (rows * cols) ++
        List.replicate (rows * cols - shuffled.length) "" ∧
    (cards.length ≤ rows * cols →
      List.Perm (cellValues (buildBoard rows cols shuffled))
        (cards ++ List.replicate (rows * cols - cards.length) "")) := by
  have hwf := buildBoard_WF rows cols shuffled
  refine ⟨mkBoard_eq_ok rows cols shuffled, hwf.1, hwf.2,
    buildBoard_cells rows cols shuffled,
    cellValues_buildBoard rows cols shuffled, ?_⟩
  intro hle
  rw [cellValues_buildBoard]
  have hlen : shuffled.length = cards.length := hperm.length_eq
  rw [List.take_of_length_le (by omega), hlen]
  exact hperm.append (List.Perm.refl _)

/-- Witness for C9 (amended): a 2 by 2 board built from the single supplied
value A has that value and three placeholders as its cell multiset. -/
theorem claim_construction_witness :
    mkBoard 2 2 ["A"] = Except.ok (buildBoard 2 2 ["A"]) ∧
    List.Perm (cellValues (buildBoard 2 2 ["A"])) ["A", "", "", ""] := by
  have h := claim_construction 2 2 ["A"] ["A"] (by decide)
  exact ⟨h.1, h.2.2.2.2.2 (by decide)⟩

/-- Claim C10: a successful flip call preserves the board dimensions and
every cell value, and mutates at most two cells: outside the two-card
resolution branch only the 0-based target cell may change; on the resolution
branch (success with message "Match!" or "Not a match.", the active reveal
set after the reveal being exactly the pair [x, y] with the target one of
its two members) the only other cell that may change is the cell of the
other member of that reveal set; every further cell is unchanged. -/
theorem claim_flip_frame (b : Board) (player : String) (row col : Int)
    (res : FlipResult) (b' : Board) (hwf : b.WF)
    (h : b.flip row col player = Except.ok (res, b')) :
    b'.rows = b.rows ∧ b'.cols = b.cols ∧
    (∀ r c : Nat, (b'.cardAt? r c).map Card.value =
      (b.cardAt? r c).map Card.value) ∧
    ((∀ r c : Nat, ¬(r = (row - 1).toNat ∧ c = (col - 1).toNat) →
        b'.cardAt? r c = b.cardAt? r c) ∨
      (res.success = true ∧
        (res.message = "Match!" ∨ res.message = "Not a match.") ∧
        ∃ x y : RevealedCard,
          (b.afterReveal row col player).revealedOf player = [x, y] ∧
          ((x.r = (row - 1).toNat ∧ x.c = (col - 1).toNat ∧
              ∀ r c : Nat, ¬(r = (row - 1).toNat ∧ c = (col - 1).toNat) →
                ¬(r = y.r ∧ c = y.c) → b'.cardAt? r c = b.cardAt? r c) ∨
            (y.r = (row - 1).toNat ∧ y.c = (col - 1).toNat ∧
              ∀ r c : Nat, ¬(r = (row - 1).toNat ∧ c = (col - 1).toNat) →
                ¬(r = x.r ∧ c = x.c) → b'.cardAt? r c = b.cardAt? r c)))) := by
  rcases Board.flip_ok_cases h with rfl | ⟨rowArr, card, hsome, hcol, hst, hcases⟩
  · exact ⟨rfl, rfl, fun _ _ => rfl, Or.inl (fun _ _ _ => rfl)⟩
  have hvalA : ∀ r c : Nat,
      ((b.afterReveal row col player).cardAt? r c).map Card.value =
        (b.cardAt? r c).map Card.value := by
    intro r c
    exact @Board.value_cardAt?_modifyCard b (row - 1).toNat (col - 1).toNat
      (fun cd => { cd with state := CardState.revealed, controlledBy := some player })
      (fun _ => rfl) r c
  have hneOr : ∀ r c : Nat, ¬(r = (row - 1).toNat ∧ c = (col - 1).toNat) →
      (r ≠ (row - 1).toNat ∨ c ≠ (col - 1).toNat) := by
    intro r c hne
    rcases Decidable.em (r = (row - 1).toNat) with hr | hr
    · exact Or.inr (fun hc => hne ⟨hr, hc⟩)
    · exact Or.inl hr
  rcases hcases with rfl | ⟨hlen, hcase2⟩
  · refine ⟨Board.rows_afterReveal b row col player,
      Board.cols_afterReveal b row col player, hvalA, Or.inl ?_⟩
    intro r c hne
    exact Board.cardAt?_modifyCard_ne _ r c (hneOr r c hne)
  · obtain ⟨x, y, hxy⟩ := List.length_eq_two.mp hlen
    have hsome0 := hsome
    have hcol0 := hcol
    have hnn : (0 : Int) ≤ row - 1 := by
      by_contra hneg
      push_neg at hneg
      rw [listGetI_of_neg hneg] at hsome
      exact absurd hsome (by simp)
    rw [listGetI_of_nonneg hnn] at hsome
    have hnn2 : (0 : Int) ≤ col - 1 := by
      by_contra hneg
      push_neg at hneg
      rw [listGetI_of_neg hneg] at hcol
      exact absurd hcol (by simp)
    rw [listGetI_of_nonneg hnn2] at hcol
    have htr : (row - 1).toNat < b.rows := by
      rw [← hwf.1]
      exact (List.getElem?_eq_some_iff.mp hsome).1
    have htc : (col - 1).toNat < b.cols := by
      rw [← hwf.2 rowArr (List.getElem?_mem hsome)]
      exact (List.getElem?_eq_some_iff.mp hcol).1
    have hcardAt : b.cardAt? (row - 1).toNat (col - 1).toNat = some card := by
      rw [Board.cardAt?_eq hsome]
      exact hcol
    have hcard1 : (b.afterReveal row col player).cardAt?
        (row - 1).toNat (col - 1).toNat = some
        { card with state := CardState.revealed, controlledBy := some player } :=
      Board.cardAt?_modifyCard_self _ hcardAt
    have hmemT :
        ({ r := (row - 1).toNat, c := (col - 1).toNat, value := card.value } :
          RevealedCard) ∈ (b.afterReveal row col player).revealedOf player := by
      refine ((b.afterReveal row col player).mem_revealedOf player _).mpr ?_
      refine ⟨?_, ?_, _, hcard1, rfl, rfl, rfl⟩
      · rw [Board.rows_afterReveal]
        exact htr
      · rw [Board.cols_afterReveal]
        exact htc
    have hframe : ∀ (st : CardState) (o1 o2 : Nat),
        (∀ rc ∈ [x, y], (rc.r = (row - 1).toNat ∧ rc.c = (col - 1).toNat) ∨
          (rc.r = o1 ∧ rc.c = o2)) →
        ∀ r c : Nat, ¬(r = (row - 1).toNat ∧ c = (col - 1).toNat) →
          ¬(r = o1 ∧ c = o2) →
          ((b.afterReveal row col player).resolveAll [x, y] st).cardAt? r c =
            b.cardAt? r c := by
      intro st o1 o2 hcover r c hne hq
      have h1 : ((b.afterReveal row col player).resolveAll [x, y] st).cardAt? r c =
          (b.afterReveal row col player).cardAt? r c := by
        apply Board.cardAt?_resolveAll_of_notMem
        intro rc hrc hcon
        rcases hcover rc hrc with hpos | hpos
        · exact hne ⟨hcon.1 ▸ hpos.1, hcon.2 ▸ hpos.2⟩
        · exact hq ⟨hcon.1 ▸ hpos.1, hcon.2 ▸ hpos.2⟩
      rw [h1]
      exact Board.cardAt?_modifyCard_ne _ r c (hneOr r c hne)
    rw [hxy] at hmemT
    have hdims : ∀ st : CardState,
        ((b.afterReveal row col player).resolveAll [x, y] st).rows = b.rows ∧
        ((b.afterReveal row col player).resolveAll [x, y] st).cols = b.cols := by
      intro st
      rw [Board.rows_resolveAll, Board.cols_resolveAll,
        Board.rows_afterReveal, Board.cols_afterReveal]
      exact ⟨rfl, rfl⟩
    have hvals : ∀ st : CardState, ∀ r c : Nat,
        (((b.afterReveal row col player).resolveAll [x, y] st).cardAt? r c).map
          Card.value = (b.cardAt? r c).map Card.value := by
      intro st r c
      rw [Board.value_cardAt?_resolveAll]
      exact hvalA r c
    have hsplit : ∀ st : CardState,
        (x.r = (row - 1).toNat ∧ x.c = (col - 1).toNat ∧
          ∀ r c : Nat, ¬(r = (row - 1).toNat ∧ c = (col - 1).toNat) →
            ¬(r = y.r ∧ c = y.c) →
            ((b.afterReveal row col player).resolveAll [x, y] st).cardAt? r c =
              b.cardAt? r c) ∨
        (y.r = (row - 1).toNat ∧ y.c = (col - 1).toNat ∧
          ∀ r c : Nat, ¬(r = (row - 1).toNat ∧ c = (col - 1).toNat) →
            ¬(r = x.r ∧ c = x.c) →
            ((b.afterReveal row col player).resolveAll [x, y] st).cardAt? r c =
              b.cardAt? r c) := by
      intro st
      rcases List.mem_cons.mp hmemT with hTx | hTy
      · refine Or.inl ⟨by rw [← hTx], by rw [← hTx], ?_⟩
        refine hframe st y.r y.c ?_
        intro rc hrc
        rcases List.mem_cons.mp hrc with rfl | hrc2
        · exact Or.inl ⟨by rw [← hTx], by rw [← hTx]⟩
        · rw [List.mem_singleton.mp hrc2]
          exact Or.inr ⟨rfl, rfl⟩
      · have hTy' := List.mem_singleton.mp hTy
        refine Or.inr ⟨by rw [← hTy'], by rw [← hTy'], ?_⟩
        refine hframe st x.r x.c ?_
        intro rc hrc
        rcases List.mem_cons.mp hrc with rfl | hrc2
        · exact Or.inr ⟨rfl, rfl⟩
        · rw [List.mem_singleton.mp hrc2]
          exact Or.inl ⟨by rw [← hTy'], by rw [← hTy']⟩
    by_cases hv : x.value = y.value
    · have hfeq : b.flip row col player = Except.ok
          ({ success := true, message := "Match!",
             boardView := ((b.afterReveal row col player).resolveAll [x, y]
               CardState.matched).look player },
           (b.afterReveal row col player).resolveAll [x, y] CardState.matched) := by
        rw [Board.flip_eq_reveal hsome0 hcol0 hst,
          Board.flipResolve_eq_pair_eq hxy hv,
          Board.flipFinish_eq_ok _ _ (Board.WF_resolveAll [x, y]
            (Board.WF_afterReveal row col player hwf))]
      obtain ⟨hres, hb'⟩ := exceptPair_inv (hfeq.symm.trans h)
      subst hb'
      subst hres
      exact ⟨(hdims CardState.matched).1, (hdims CardState.matched).2,
        hvals CardState.matched,
        Or.inr ⟨rfl, Or.inl rfl, x, y, hxy, hsplit CardState.matched⟩⟩
    · have hfeq : b.flip row col player = Except.ok
          ({ success := true, message := "Not a match.",
             boardView := ((b.afterReveal row col player).resolveAll [x, y]
               CardState.faceDown).look player },
           (b.afterReveal row col player).resolveAll [x, y] CardState.faceDown) := by
        rw [Board.flip_eq_reveal hsome0 hcol0 hst,
          Board.flipResolve_eq_pair_ne hxy hv,
          Board.flipFinish_eq_ok _ _ (Board.WF_resolveAll [x, y]
            (Board.WF_afterReveal row col player hwf))]
      obtain ⟨hres, hb'⟩ := exceptPair_inv (hfeq.symm.trans h)
      subst hb'
      subst hres
      exact ⟨(hdims CardState.faceDown).1, (hdims CardState.faceDown).2,
        hvals CardState.faceDown,
        Or.inr ⟨rfl, Or.inr rfl, x, y, hxy, hsplit CardState.faceDown⟩⟩

/-- Witness for C10: the match-resolving flip on the 1 by 2 sample board
keeps the dimensions and the cell values. -/
theorem claim_flip_frame_witness :
    (Board.mk 1 2
      [[{ value := "A", state := CardState.matched, controlledBy := none },
        { value := "A", state := CardState.matched, controlledBy := none }]]).rows =
      bPairAA.rows ∧
    ((Board.mk 1 2
      [[{ value := "A", state := CardState.matched, controlledBy := none },
        { value := "A", state := CardState.matched, controlledBy := none }]]).cardAt?
        0 0).map Card.value = (bPairAA.cardAt? 0 0).map Card.value := by
  have h := claim_flip_frame bPairAA "p" 1 2
    { success := true,
      message := "Match!",
      boardView :=
        [[{ value := some "A", state := CardState.matched, controlledBy := none },
          { value := some "A", state := CardState.matched, controlledBy := none }]] }
    (Board.mk 1 2
      [[{ value := "A", state := CardState.matched, controlledBy := none },
        { value := "A", state := CardState.matched, controlledBy := none }]])
    (by decide) rfl
  exact ⟨h.1, h.2.2.1 0 0⟩
